import Mathlib

/-!
Verification of the leave/attendance accounting rules of the EMS web
application.  The Python route handlers are embedded shallowly: each
handler's business logic (validation order, date arithmetic, table
reads/writes) becomes an executable Lean function over explicit table
states, and the specification's sentences become theorems about those
functions.

Conventions of the embedding:
  * a calendar date is a `(year, month, day)` record; chronological order
    is via a day count (`civilDays`, the standard civil-calendar day
    numbering), which for valid dates coincides with Python's `date`
    ordering;
  * `YYYY-MM-DD` string parsing follows `datetime.strptime(s, "%Y-%m-%d")`:
    exactly four year digits, one or two month/day digits, and the
    resulting numbers must form a real calendar date with year at least 1;
  * clock timestamps are integer seconds; `total_hours` is an exact
    rational, with Python's `round(x, n)` modelled as round-half-to-even
    at exact rational precision;
  * a database table is a list of rows; `insert` appends, `update`/`delete`
    keyed by equality filters rewrite/drop every matching row, mirroring
    the REST client's semantics.
-/

/-- A calendar date as carried by the application: year, month, day. -/
structure Date where
  year : Nat
  month : Nat
  day : Nat
deriving DecidableEq, Repr

/-- Gregorian leap-year test. -/
def isLeap (y : Nat) : Bool :=
  (y % 4 == 0 && y % 100 != 0) || (y % 400 == 0)

/-- Number of days in a month of a given year. -/
def daysInMonth (y m : Nat) : Nat :=
  if m = 2 then (if isLeap y then 29 else 28)
  else if m = 4 ∨ m = 6 ∨ m = 9 ∨ m = 11 then 30
  else 31

/-- Day number of a date in the proleptic Gregorian calendar (civil-days
algorithm, March-based year; the epoch offset is irrelevant because the
code only ever compares dates and takes differences).  For reference,
`civilDays ⟨1970, 1, 1⟩ = 719468`. -/
def civilDays (dt : Date) : Nat :=
  let y := if dt.month ≤ 2 then dt.year - 1 else dt.year
  let era := y / 400
  let yoe := y % 400
  let mp := (dt.month + 9) % 12
  let doy := (153 * mp + 2) / 5 + dt.day - 1
  let doe := yoe * 365 + yoe / 4 - yoe / 100 + doy
  era * 146097 + doe

/-- Python `date` comparison `a < b` (chronological). -/
def dateLT (a b : Date) : Bool := civilDays a < civilDays b

/-- Python `date` comparison `a <= b` (chronological). -/
def dateLE (a b : Date) : Bool := civilDays a ≤ civilDays b

/-- Python `date.weekday()`: Monday is 0, Sunday is 6. -/
def pyWeekday (d : Date) : Nat := (civilDays d + 2) % 7

/-- Split a character list at every dash, like Python `str.split("-")` /
`String.splitOn "-"` restricted to the one-character separator the date
format uses. -/
def splitDash : List Char → List Char → List (List Char)
  | [], acc => [acc.reverse]
  | c :: rest, acc =>
    if c = '-' then acc.reverse :: splitDash rest []
    else splitDash rest (c :: acc)

/-- Numeric value of a digit string. -/
def digitsVal (cs : List Char) : Nat :=
  cs.foldl (fun a c => a * 10 + (c.toNat - 48)) 0

/-- Parse a nonempty all-digit character list, else fail. -/
def parseDigits (cs : List Char) : Option Nat :=
  if cs ≠ [] ∧ cs.all Char.isDigit then some (digitsVal cs) else none

/-- Parsing of a date string per `datetime.strptime(s, "%Y-%m-%d")`
followed by `.date()`: the string must be exactly
`<4 digits>-<1 or 2 digits>-<1 or 2 digits>`, and the three numbers must
form a real calendar date with year ≥ 1.  Returns `none` exactly when the
Python call raises. -/
def parseDate (s : String) : Option Date :=
  match splitDash s.data [] with
  | [ys, ms, ds] =>
    match parseDigits ys, parseDigits ms, parseDigits ds with
    | some y, some m, some d =>
      if ys.length = 4 ∧ 1 ≤ ms.length ∧ ms.length ≤ 2 ∧ 1 ≤ ds.length ∧ ds.length ≤ 2
          ∧ 1 ≤ y ∧ 1 ≤ m ∧ m ≤ 12 ∧ 1 ≤ d ∧ d ≤ daysInMonth y m
      then some ⟨y, m, d⟩
      else none
    | _, _, _ => none
  | _ => none

/-- Leading-segment test on character lists. -/
def strLeads : List Char → List Char → Bool
  | [], _ => true
  | _ :: _, [] => false
  | p :: ps, c :: cs => p == c && strLeads ps cs

/-- Python `str.startswith`: does `s` begin with `p`? -/
def strStartsWith (s p : String) : Bool := strLeads p.data s.data

/-- ASCII whitespace in the sense of Python `str.strip()`. -/
def isSpaceChar (c : Char) : Bool :=
  c == ' ' || c == '\t' || c == '\n' || c == '\r' || c == '\x0b' || c == '\x0c'

/-- Python `str.strip()`: drop leading and trailing whitespace. -/
def pyStrip (s : String) : String :=
  ⟨(((s.data.dropWhile isSpaceChar).reverse.dropWhile isSpaceChar).reverse)⟩

/-- Zero-pad a month or day number to two digits. -/
def pad2 (n : Nat) : String := if n < 10 then "0" ++ toString n else toString n

/-- Python `date.isoformat()` for the four-digit years the app works with. -/
def isoString (d : Date) : String :=
  toString d.year ++ "-" ++ pad2 d.month ++ "-" ++ pad2 d.day

/-- Round-half-to-even of the fraction `a / b` (with `b > 0`) to an
integer: the behaviour of Python `round` taken at exact rational
precision, with numerator and denominator kept in `ℤ` so that concrete
instances reduce in the kernel. -/
def roundDiv2HalfEven (a b : Int) : Int :=
  let f := Int.fdiv a b
  let r2 := 2 * (a - f * b)
  if r2 < b then f else if r2 > b then f + 1 else if f % 2 = 0 then f else f + 1

/-- Python `round(seconds / 3600, 2)` at exact rational precision:
`seconds / 3600` rounded half-to-even at two decimals. -/
def clockHours (seconds : Int) : ℚ :=
  (roundDiv2HalfEven (seconds * 100) 3600 : ℚ) / 100

/-- A row of the `leave_requests` table as the handlers see it (the JSON
fields the code reads; `created_at` is the stored timestamp string). -/
structure LeaveReq where
  id : String
  employee_id : String
  leave_type : String
  start_date : String
  end_date : String
  reason : String
  status : String
  created_at : String
deriving DecidableEq, Repr

namespace EmployeeLeave

/-- Embedding of `calculate_leave_days` (employee_leave.py): parse both
strings as `%Y-%m-%d` dates and return `(end - start).days + 1`; any
parse failure is swallowed by the bare `except` and yields 0. -/
def calculate_leave_days (start_date end_date : String) : Int :=
  match parseDate start_date, parseDate end_date with
  | some s, some e => (civilDays e : Int) - civilDays s + 1
  | _, _ => 0

/-- Result record of `get_leave_stats`. -/
structure LeaveStats where
  total_requested : Int
  approved_days : Int
  pending_requests : Nat
  remaining_balance : Int
deriving DecidableEq, Repr

/-- Loop body of `get_leave_stats`: the accumulator carries
`(total_requested, approved_days, pending_requests)`.  A request counts
only when its `created_at` string starts with the current year; approved
requests add their day count to `approved_days`, pending ones bump
`pending_requests`. -/
def leaveStatsStep (current_year : Nat) (acc : Int × Int × Nat) (leave : LeaveReq) :
    Int × Int × Nat :=
  if strStartsWith leave.created_at (toString current_year) then
    let days := calculate_leave_days leave.start_date leave.end_date
    let total := acc.1 + days
    if leave.status == "approved" then (total, acc.2.1 + days, acc.2.2)
    else if leave.status == "pending" then (total, acc.2.1, acc.2.2 + 1)
    else (total, acc.2.1, acc.2.2)
  else acc

/-- Embedding of `get_leave_stats` (employee_leave.py): fold the loop over
the employee's leave requests, then `remaining_balance = max(0, 20 -
approved_days)`. -/
def get_leave_stats (current_year : Nat) (reqs : List LeaveReq) : LeaveStats :=
  let acc := reqs.foldl (leaveStatsStep current_year) (0, 0, 0)
  ⟨acc.1, acc.2.1, acc.2.2, max 0 (20 - acc.2.1)⟩

/-- The `value` column of `LEAVE_TYPES` (employee_leave.py). -/
def leaveTypeValues : List String :=
  ["vacation", "sick", "personal", "emergency", "maternity", "paternity",
   "bereavement", "other"]

/-- The row `submit_leave_request` inserts (the database assigns `id` and
`created_at`, so they are absent here). -/
structure LeaveReqData where
  employee_id : String
  leave_type : String
  start_date : String
  end_date : String
  reason : String
  status : String
deriving DecidableEq, Repr

/-- Response of `submit_leave_request`: success flag, error message, and
the inserted row if any. -/
structure SubmitResult where
  success : Bool
  error : String
  inserted : Option LeaveReqData
deriving DecidableEq, Repr

/-- Overlap loop of `submit_leave_request`: the backend query keeps the
employee's rows with `status != 'rejected'`, then each is compared by
date range to the new request.  Returns the error message the handler
answers with, or `none` when the loop falls through.  A stored row whose
dates do not parse makes `strptime` raise, which the outer `except` turns
into the generic failure message. -/
def overlapLoop (s e : Date) : List LeaveReq → Option String
  | [] => none
  | r :: rest =>
    if r.status == "rejected" then overlapLoop s e rest
    else
      match parseDate r.start_date, parseDate r.end_date with
      | some es, some ee =>
        if !(dateLT e es || dateLT ee s) then
          some "Leave request overlaps with existing request"
        else overlapLoop s e rest
      | _, _ => some "Failed to submit leave request"

/-- Embedding of `submit_leave_request` (employee_leave.py), validation
in source order: required fields, allowed leave type, date parsing,
start not in the past, end not before start, no overlap with the
employee's non-rejected requests; then insert with status `pending`. -/
def submit_leave_request (today : Date) (employee_id : String)
    (leave_type start_date end_date reason : String)
    (existing : List LeaveReq) : SubmitResult :=
  if leave_type == "" then ⟨false, "Leave Type is required", none⟩
  else if start_date == "" then ⟨false, "Start Date is required", none⟩
  else if end_date == "" then ⟨false, "End Date is required", none⟩
  else if reason == "" then ⟨false, "Reason is required", none⟩
  else if !(leaveTypeValues.contains leave_type) then ⟨false, "Invalid leave type", none⟩
  else
    match parseDate start_date, parseDate end_date with
    | some s, some e =>
      if dateLT s today then ⟨false, "Start date cannot be in the past", none⟩
      else if dateLT e s then ⟨false, "End date must be after start date", none⟩
      else
        match overlapLoop s e existing with
        | some msg => ⟨false, msg, none⟩
        | none =>
          ⟨true, "",
           some ⟨employee_id, leave_type, start_date, end_date, pyStrip reason, "pending"⟩⟩
    | _, _ => ⟨false, "Invalid date format", none⟩

/-- Response of `cancel_leave_request` together with the table state it
leaves behind. -/
structure CancelResult where
  success : Bool
  message : String
  table : List LeaveReq
deriving DecidableEq, Repr

/-- Embedding of `cancel_leave_request` (employee_leave.py): look the
request up by id and owner, refuse unless its status is `pending`, then
delete every row with that id. -/
def cancel_leave_request (leave_id employee_id : String)
    (table : List LeaveReq) : CancelResult :=
  match (table.filter fun r => r.id == leave_id && r.employee_id == employee_id).head? with
  | none => ⟨false, "Leave request not found", table⟩
  | some r =>
    if r.status != "pending" then ⟨false, "Can only cancel pending requests", table⟩
    else
      let remaining := table.filter fun x => !(x.id == leave_id)
      if (table.filter fun x => x.id == leave_id) ≠ [] then
        ⟨true, "Leave request cancelled successfully", remaining⟩
      else ⟨false, "Failed to cancel leave request", table⟩

end EmployeeLeave

/-- Date-range overlap with some non-rejected request of the list, worded
as the specification states it (rows whose stored dates do not parse
cannot overlap). -/
def overlapsExisting (s e : Date) (reqs : List LeaveReq) : Bool :=
  reqs.any fun r => r.status != "rejected" &&
    (match parseDate r.start_date, parseDate r.end_date with
     | some es, some ee => !(dateLT e es || dateLT ee s)
     | _, _ => false)

namespace App

/-- The query window of `get_employee_stats` (app.py): the backend filter
`gte('start_date', year-01-01)` and `lte('end_date', year-12-31)` applied
to the date-typed columns. -/
def inYearWindow (year : Nat) (r : LeaveReq) : Bool :=
  match parseDate r.start_date, parseDate r.end_date with
  | some s, some e => dateLE ⟨year, 1, 1⟩ s && dateLE e ⟨year, 12, 31⟩
  | _, _ => false

/-- Accumulation loop of `get_employee_stats`: re-parse each returned
row's dates and add `(end - start).days + 1`; a row whose dates fail to
parse is skipped (`except ... continue`). -/
def statsUsedLoop : List LeaveReq → Int
  | [] => 0
  | r :: rest =>
    match parseDate r.start_date, parseDate r.end_date with
    | some s, some e => ((civilDays e : Int) - civilDays s + 1) + statsUsedLoop rest
    | _, _ => statsUsedLoop rest

/-- Embedding of the leave-balance part of `get_employee_stats` (app.py):
query approved requests inside the year window, sum their day counts,
and return `max(0, 20 - total_used)` with the fixed 20-day allocation. -/
def get_employee_stats_leave_balance (year : Nat) (reqs : List LeaveReq) : Int :=
  let total_used :=
    statsUsedLoop (reqs.filter fun r => r.status == "approved" && inYearWindow year r)
  max 0 (20 - total_used)

/-- A row of the `attendance` table as `employee_clock` reads it.  Clock
timestamps are integer seconds (the stored ISO strings, already parsed);
`total_hours` is the stored rounded value. -/
structure AttRecord where
  id : String
  employee_id : String
  date : String
  clock_in_time : Option Int
  clock_out_time : Option Int
  total_hours : Option ℚ
  status : String
deriving DecidableEq, Repr

/-- Response of `employee_clock` plus the post-state of today's
attendance record: `post` is the stored row for `(user, today)` after the
request (unchanged on error). -/
structure ClockResult where
  success : Bool
  action : String
  error : String
  post : Option AttRecord
deriving DecidableEq, Repr

/-- Embedding of `employee_clock` (app.py): with no record for today,
insert a clock-in row with status `present`; with a record that has a
clock-in but no clock-out, set the clock-out time, `total_hours =
round((out - in) / 3600, 2)` and status `completed`; otherwise answer
the already-completed error and write nothing. -/
def employee_clock (user_id today : String) (clock_time : Int)
    (existing : Option AttRecord) : ClockResult :=
  match existing with
  | none =>
    ⟨true, "clock_in", "",
     some ⟨"", user_id, today, some clock_time, none, none, "present"⟩⟩
  | some r =>
    match r.clock_in_time, r.clock_out_time with
    | some t_in, none =>
      let total_hours := clockHours (clock_time - t_in)
      ⟨true, "clock_out", "",
       some { r with clock_out_time := some clock_time,
                     total_hours := some total_hours,
                     status := "completed" }⟩
    | _, _ => ⟨false, "", "Attendance already completed for today", existing⟩

end App

/-- The leave-balance formula as the specification words it: `max(0, 20 -
total_used)` where `total_used` sums `(end - start).days + 1` over exactly
the employee's approved requests whose `start_date` falls within
`[year-01-01, year-12-31]`.  Stated from the spec's words to compare with
the two implementations above. -/
def specClaimBalance (year : Nat) (reqs : List LeaveReq) : Int :=
  let total_used :=
    ((reqs.filter fun r => r.status == "approved" &&
        (match parseDate r.start_date with
         | some s => dateLE ⟨year, 1, 1⟩ s && dateLE s ⟨year, 12, 31⟩
         | none => false)).map
      fun r => EmployeeLeave.calculate_leave_days r.start_date r.end_date).sum
  max 0 (20 - total_used)

/-- A row of the `employees` table (the fields the attendance handlers
read). -/
structure Employee where
  id : String
  name : String
  role : String
  status : String
deriving DecidableEq, Repr

/-- A row of the `attendance` table as the marking handlers see it (the
clock columns play no role there).  `created_at` is an integer
timestamp; `none` stands for the database-assigned default of a fresh
insert that does not set the column. -/
structure AttRow where
  employee_id : String
  date : String
  status : String
  created_at : Option Int
deriving DecidableEq, Repr

/-- The natural key both marking handlers filter on: employee and
ISO-formatted day. -/
def attKey (eid dateIso : String) (r : AttRow) : Bool :=
  r.employee_id == eid && r.date == dateIso

namespace AdminAttendance

/-- Response of the admin `mark_attendance` handler plus the table state
it leaves behind. -/
structure MarkResult where
  success : Bool
  message : String
  table : List AttRow
deriving DecidableEq, Repr

/-- Embedding of the admin `mark_attendance` (admin_attendance.py),
validation in source order: required fields, allowed status, date
parsing, no future date, active employee lookup; then update every row
for `(employee, date)` (status and `created_at`) if one exists, else
insert a fresh row. -/
def mark_attendance (now : Int) (today : Date) (employee_id status date : String)
    (employees : List Employee) (table : List AttRow) : MarkResult :=
  if employee_id == "" || status == "" || date == "" then
    ⟨false, "Missing required fields", table⟩
  else if !(["present", "absent", "late"].contains status) then
    ⟨false, "Invalid status", table⟩
  else
    match parseDate date with
    | none => ⟨false, "Invalid date format", table⟩
    | some d =>
      if dateLT today d then ⟨false, "Cannot mark attendance for future dates", table⟩
      else
        match (employees.filter fun emp =>
            emp.id == employee_id && emp.role == "employee" && emp.status == "active").head? with
        | none => ⟨false, "Employee not found or inactive", table⟩
        | some emp =>
          if (table.filter (attKey employee_id (isoString d))) ≠ [] then
            ⟨true, "Attendance updated to " ++ status ++ " for " ++ emp.name,
             table.map fun r =>
               if attKey employee_id (isoString d) r then
                 { r with status := status, created_at := some now }
               else r⟩
          else
            ⟨true, "Attendance marked as " ++ status ++ " for " ++ emp.name,
             table ++ [⟨employee_id, isoString d, status, none⟩]⟩

/-- The weekday-counting loop of `attendance_report`
(admin_attendance.py): number of Monday-to-Friday days in the inclusive
range; an empty range (start after end) counts zero. -/
def workingDays (s e : Date) : Nat :=
  ((List.range (civilDays e + 1 - civilDays s)).filter
    fun i => (civilDays s + i + 2) % 7 < 5).length

/-- Per-employee rate of `attendance_report`: initialised to 0 and only
recomputed as `round(present / working * 100, 2)` when the range has a
positive number of working days. -/
def attendance_percentage (present_days : Nat) (s e : Date) : ℚ :=
  if workingDays s e > 0 then
    (roundDiv2HalfEven ((present_days : Int) * 100 * 100) (workingDays s e : Int) : ℚ) / 100
  else 0

end AdminAttendance

namespace EmployeeAttendance

/-- Rate of `get_attendance_stats` (employee_attendance.py):
`present / total * 100` guarded to 0 when `total_days = 0`, then
`round(x, 1)` on the way out; `total_days` at the call site is the number
of days of the current month. -/
def stats_attendance_rate (present_days total_days : Nat) : ℚ :=
  if total_days > 0 then
    (roundDiv2HalfEven ((present_days : Int) * 100 * 10) (total_days : Int) : ℚ) / 10
  else 0

/-- Response of the employee self-service `mark_attendance` handler plus
the table state it leaves behind. -/
structure MarkTodayResult where
  success : Bool
  message : String
  table : List AttRow
deriving DecidableEq, Repr

/-- Embedding of the employee `mark_attendance`
(employee_attendance.py): refuse when a row for `(employee, today)`
already exists, else insert one `present` row stamped with the current
time. -/
def mark_attendance (now : Int) (employee_id todayIso : String)
    (table : List AttRow) : MarkTodayResult :=
  if (table.filter (attKey employee_id todayIso)) ≠ [] then
    ⟨false, "Attendance already marked for today.", table⟩
  else
    ⟨true, "Attendance marked successfully!",
     table ++ [⟨employee_id, todayIso, "present", some now⟩]⟩

end EmployeeAttendance

namespace AdminLeave

/-- Loop of `validate_leave_request` (admin_leave_requests.py): for each
row returned by the approved-only query, parse the stored and the new
date strings and test `new_start <= existing_end and new_end >=
existing_start`.  Any `strptime` failure raises, which the function's own
`except` turns into `(False, "Validation error")`. -/
def validateLoop (start_date end_date : String) : List LeaveReq → Bool × String
  | [] => (true, "Valid")
  | r :: rest =>
    match parseDate r.start_date, parseDate r.end_date,
          parseDate start_date, parseDate end_date with
    | some es, some ee, some ns, some ne =>
      if dateLE ns ee && dateLE es ne then
        (false, "Leave request overlaps with existing approved leave")
      else validateLoop start_date end_date rest
    | _, _, _, _ => (false, "Validation error")

/-- Embedding of `validate_leave_request` (admin_leave_requests.py): the
backend query keeps only the employee's rows with `status == 'approved'`,
then the loop above runs over them. -/
def validate_leave_request (start_date end_date : String)
    (reqs : List LeaveReq) : Bool × String :=
  validateLoop start_date end_date (reqs.filter fun r => r.status == "approved")

/-- Response of the admin `create_leave_request` route: success flag,
error message, and the inserted row if any. -/
structure AdminCreateResult where
  success : Bool
  error : String
  inserted : Option EmployeeLeave.LeaveReqData
deriving DecidableEq, Repr

/-- Embedding of `create_leave_request` (admin_leave_requests.py),
validation in source order: required fields (reason is optional and
defaults to the empty string, unstripped), date parsing, start not in
the past, end not before start, `validate_leave_request` (which checks
overlap only against *approved* requests), employee lookup by id; then
insert with status `pending`. -/
def create_leave_request (today : Date) (employee_id leave_type : String)
    (start_date end_date reason : String)
    (existing : List LeaveReq) (employees : List Employee) : AdminCreateResult :=
  if employee_id == "" then ⟨false, "employee_id is required", none⟩
  else if leave_type == "" then ⟨false, "leave_type is required", none⟩
  else if start_date == "" then ⟨false, "start_date is required", none⟩
  else if end_date == "" then ⟨false, "end_date is required", none⟩
  else
    match parseDate start_date, parseDate end_date with
    | some s, some e =>
      if dateLT s today then ⟨false, "Start date cannot be in the past", none⟩
      else if dateLT e s then ⟨false, "End date must be after start date", none⟩
      else
        match validate_leave_request start_date end_date existing with
        | (false, msg) => ⟨false, msg, none⟩
        | (true, _) =>
          match (employees.filter fun emp => emp.id == employee_id).head? with
          | none => ⟨false, "Employee not found", none⟩
          | some _ =>
            ⟨true, "",
             some ⟨employee_id, leave_type, start_date, end_date, reason, "pending"⟩⟩
    | _, _ => ⟨false, "Invalid date format", none⟩

end AdminLeave

/-- Date-range overlap with some approved request of the list, worded as
the admin validation's policy reads (rows whose stored dates do not
parse cannot overlap). -/
def overlapsApproved (s e : Date) (reqs : List LeaveReq) : Bool :=
  reqs.any fun r => r.status == "approved" &&
    (match parseDate r.start_date, parseDate r.end_date with
     | some es, some ee => dateLE s ee && dateLE es e
     | _, _ => false)

-- Sanity checks of the embedding against known concrete values
-- (calendar arithmetic, strptime acceptance and rejection, rounding).
example : civilDays ⟨1970, 1, 1⟩ = 719468 := by decide
example : pyWeekday ⟨2025, 10, 12⟩ = 6 := by decide
example : pyWeekday ⟨2025, 10, 11⟩ = 5 := by decide
example : pyWeekday ⟨2025, 10, 13⟩ = 0 := by decide
example : parseDate "2025-03-15" = some ⟨2025, 3, 15⟩ := by decide
example : parseDate "2025-3-5" = some ⟨2025, 3, 5⟩ := by decide
example : parseDate "2025-13-01" = none := by decide
example : parseDate "2025-02-30" = none := by decide
example : parseDate "2024-02-29" = some ⟨2024, 2, 29⟩ := by decide
example : parseDate "" = none := by decide
example : parseDate "garbage" = none := by decide
example : parseDate "0000-01-01" = none := by decide
example : isoString ⟨2025, 3, 5⟩ = "2025-03-05" := by decide
example : EmployeeLeave.calculate_leave_days "2025-03-15" "2025-03-17" = 3 := by decide
example : EmployeeLeave.calculate_leave_days "x" "2025-03-17" = 0 := by decide
example : roundDiv2HalfEven 3060000 3600 = 850 := by decide
example : clockHours 30600 = 17 / 2 := by
  have h : roundDiv2HalfEven (30600 * 100) 3600 = 850 := by decide
  rw [clockHours, h]; norm_num

/-- C4: for every pair of dates with start ≤ end (both parsing as
`%Y-%m-%d`), the leave-day count computed by `calculate_leave_days`
equals `(end - start).days + 1`, counting both endpoints inclusively. -/
theorem c4_leave_day_count (sd ed : String) (s e : Date)
    (hs : parseDate sd = some s) (he : parseDate ed = some e)
    (hle : dateLE s e = true) :
    EmployeeLeave.calculate_leave_days sd ed = (civilDays e : Int) - civilDays s + 1 := by
  unfold EmployeeLeave.calculate_leave_days
  rw [hs, he]

/-- Witness for C4 at the spec's example: 2025-03-15 through 2025-03-17
is 3 days. -/
theorem c4_witness :
    dateLE ⟨2025, 3, 15⟩ ⟨2025, 3, 17⟩ = true
      ∧ EmployeeLeave.calculate_leave_days "2025-03-15" "2025-03-17" = 3 := by
  refine ⟨by decide, ?_⟩
  have h := c4_leave_day_count "2025-03-15" "2025-03-17" ⟨2025, 3, 15⟩ ⟨2025, 3, 17⟩
    (by decide) (by decide) (by decide)
  rw [h]; decide

/-- C10: `calculate_leave_days` is total over arbitrary strings: whenever
either input fails to parse as a `%Y-%m-%d` date it returns 0 instead of
raising, so malformed dates contribute 0 days to every total built from
it. -/
theorem c10_malformed_dates_zero (sd ed : String)
    (h : parseDate sd = none ∨ parseDate ed = none) :
    EmployeeLeave.calculate_leave_days sd ed = 0 := by
  unfold EmployeeLeave.calculate_leave_days
  rcases h with h | h
  · rw [h]
  · rw [h]; cases parseDate sd <;> rfl

/-- Witness for C10: an impossible month fails to parse and the day count
is 0. -/
theorem c10_witness :
    parseDate "2025-13-01" = none
      ∧ EmployeeLeave.calculate_leave_days "2025-13-01" "2025-01-01" = 0 :=
  ⟨by decide, c10_malformed_dates_zero "2025-13-01" "2025-01-01" (Or.inl (by decide))⟩

/-- C2: a second clock event on a day whose record has a clock-in and no
clock-out sets the clock-out time, sets `total_hours` to the elapsed
seconds divided by 3600 rounded to 2 decimals, and sets the status to
`completed`. -/
theorem c2_clock_out_transition (uid today : String) (t t_in : Int) (r : App.AttRecord)
    (hin : r.clock_in_time = some t_in) (hout : r.clock_out_time = none) :
    App.employee_clock uid today t (some r)
      = ⟨true, "clock_out", "",
         some { r with clock_out_time := some t,
                       total_hours := some (clockHours (t - t_in)),
                       status := "completed" }⟩ := by
  simp [App.employee_clock, hin, hout]

/-- Witness for C2 at the spec's example: clock-in 09:00 (32400 s),
clock-out 17:30 (63000 s) gives `total_hours = 8.5`. -/
theorem c2_witness :
    App.employee_clock "e1" "2025-10-12" 63000
        (some ⟨"a1", "e1", "2025-10-12", some 32400, none, none, "present"⟩)
      = ⟨true, "clock_out", "",
         some ⟨"a1", "e1", "2025-10-12", some 32400, some 63000,
               some (17 / 2 : ℚ), "completed"⟩⟩ := by
  have h := c2_clock_out_transition "e1" "2025-10-12" 63000 32400
    ⟨"a1", "e1", "2025-10-12", some 32400, none, none, "present"⟩ rfl rfl
  rw [h]
  have h85 : clockHours (63000 - 32400) = 17 / 2 := by
    have hr : roundDiv2HalfEven ((63000 - 32400 : Int) * 100) 3600 = 850 := by decide
    rw [clockHours, hr]; norm_num
  rw [h85]

/-- C3: a further clock event on a record of the current day that already
has both clock times set answers the already-completed error and writes
nothing: the record is unchanged. -/
theorem c3_already_completed (uid today : String) (t a b : Int) (r : App.AttRecord)
    (hin : r.clock_in_time = some a) (hout : r.clock_out_time = some b) :
    App.employee_clock uid today t (some r)
      = ⟨false, "", "Attendance already completed for today", some r⟩ := by
  simp [App.employee_clock, hin, hout]

/-- Witness for C3: a completed record rejects a third clock event with
its clock times, hours and status untouched. -/
theorem c3_witness :
    App.employee_clock "e1" "2025-10-12" 70000
        (some ⟨"a1", "e1", "2025-10-12", some 32400, some 63000,
               some (17 / 2 : ℚ), "completed"⟩)
      = ⟨false, "", "Attendance already completed for today",
         some ⟨"a1", "e1", "2025-10-12", some 32400, some 63000,
               some (17 / 2 : ℚ), "completed"⟩⟩ :=
  c3_already_completed "e1" "2025-10-12" 70000 32400 63000
    ⟨"a1", "e1", "2025-10-12", some 32400, some 63000, some (17 / 2 : ℚ), "completed"⟩
    rfl rfl

/-- C8: the attendance-rate computations are total: the admin report's
per-employee percentage is 0 whenever the range has 0 working days, and
the employee stats rate is 0 whenever its day denominator is 0 — no
division by zero is ever evaluated. -/
theorem c8_rate_total (present_days : Nat) (s e : Date)
    (hw : AdminAttendance.workingDays s e = 0) :
    AdminAttendance.attendance_percentage present_days s e = 0
      ∧ ∀ p : Nat, EmployeeAttendance.stats_attendance_rate p 0 = 0 := by
  constructor
  · unfold AdminAttendance.attendance_percentage
    rw [hw]; simp
  · intro p; rfl

/-- Witness for C8: a Saturday-to-Sunday range has 0 working days and
rate 0. -/
theorem c8_witness :
    AdminAttendance.workingDays ⟨2025, 10, 11⟩ ⟨2025, 10, 12⟩ = 0
      ∧ AdminAttendance.attendance_percentage 5 ⟨2025, 10, 11⟩ ⟨2025, 10, 12⟩ = 0 :=
  ⟨by decide, (c8_rate_total 5 ⟨2025, 10, 11⟩ ⟨2025, 10, 12⟩ (by decide)).1⟩

/-- C7: cancelling a leave request succeeds only while its status is
`pending`, deleting the row; on an `approved` or `rejected` (or any
non-pending) request it answers an error and leaves the table
unchanged. -/
theorem c7_cancel_pending_only (leave_id eid : String) (table : List LeaveReq) (r : LeaveReq)
    (hfind : (table.filter fun x => x.id == leave_id && x.employee_id == eid).head? = some r) :
    (r.status ≠ "pending" →
        EmployeeLeave.cancel_leave_request leave_id eid table
          = ⟨false, "Can only cancel pending requests", table⟩)
    ∧ (r.status = "pending" →
        EmployeeLeave.cancel_leave_request leave_id eid table
          = ⟨true, "Leave request cancelled successfully",
             table.filter fun x => !(x.id == leave_id)⟩) := by
  have hmem : r ∈ table.filter fun x => x.id == leave_id && x.employee_id == eid :=
    List.mem_of_mem_head? (by rw [hfind]; exact rfl)
  have hcond := (List.mem_filter.mp hmem).2
  have hrid : (r.id == leave_id) = true := by
    have h := hcond
    simp only [Bool.and_eq_true] at h
    exact h.1
  have hne : (table.filter fun x => x.id == leave_id) ≠ [] :=
    List.ne_nil_of_mem (List.mem_filter.mpr ⟨(List.mem_filter.mp hmem).1, hrid⟩)
  constructor
  · intro h
    have hb : (r.status != "pending") = true := by simpa using h
    simp [EmployeeLeave.cancel_leave_request, hfind, hb]
  · intro h
    simp [EmployeeLeave.cancel_leave_request, hfind, h, hne]

/-- Witness for C7: a pending request is deleted; with the theorem's
hypothesis instantiated at a one-row table. -/
theorem c7_witness :
    EmployeeLeave.cancel_leave_request "L1" "e1"
        [⟨"L1", "e1", "vacation", "2025-10-20", "2025-10-21", "trip", "pending",
          "2025-10-12T08:00:00"⟩]
      = ⟨true, "Leave request cancelled successfully", []⟩ := by
  have h := (c7_cancel_pending_only "L1" "e1"
    [⟨"L1", "e1", "vacation", "2025-10-20", "2025-10-21", "trip", "pending",
      "2025-10-12T08:00:00"⟩]
    ⟨"L1", "e1", "vacation", "2025-10-20", "2025-10-21", "trip", "pending",
      "2025-10-12T08:00:00"⟩ (by decide)).2 rfl
  rw [h]; decide

/-- C9: the employee self-service attendance mark never overwrites: with
an existing row for `(employee, today)` it fails and writes nothing,
otherwise it inserts exactly one `present` row for today; consequently it
preserves the at-most-one-row-per-`(employee, date)` invariant. -/
theorem c9_mark_once_invariant (now : Int) (eid todayIso : String) (table : List AttRow) :
    ((table.filter (attKey eid todayIso)) ≠ [] →
        EmployeeAttendance.mark_attendance now eid todayIso table
          = ⟨false, "Attendance already marked for today.", table⟩)
    ∧ ((table.filter (attKey eid todayIso)) = [] →
        EmployeeAttendance.mark_attendance now eid todayIso table
          = ⟨true, "Attendance marked successfully!",
             table ++ [⟨eid, todayIso, "present", some now⟩]⟩)
    ∧ ((∀ e d, (table.filter (attKey e d)).length ≤ 1) →
        ∀ e d, ((EmployeeAttendance.mark_attendance now eid todayIso table).table.filter
            (attKey e d)).length ≤ 1) := by
  by_cases hc : (table.filter (attKey eid todayIso)) = []
  · refine ⟨fun h => absurd hc h, fun _ => ?_, fun hinv e d => ?_⟩
    · simp [EmployeeAttendance.mark_attendance, hc]
    · have hres : (EmployeeAttendance.mark_attendance now eid todayIso table).table
          = table ++ [⟨eid, todayIso, "present", some now⟩] := by
        simp [EmployeeAttendance.mark_attendance, hc]
      rw [hres, List.filter_append]
      by_cases hp : attKey e d ⟨eid, todayIso, "present", some now⟩ = true
      · have hed : eid = e ∧ todayIso = d := by simpa [attKey] using hp
        obtain ⟨he1, he2⟩ := hed
        subst he1; subst he2
        simp [hp, hc]
      · have hp' : attKey e d ⟨eid, todayIso, "present", some now⟩ = false :=
          Bool.eq_false_iff.mpr hp
        simp [hp']
        exact hinv e d
  · refine ⟨fun _ => ?_, fun h => absurd h hc, fun hinv e d => ?_⟩
    · simp [EmployeeAttendance.mark_attendance, hc]
    · have hres : (EmployeeAttendance.mark_attendance now eid todayIso table).table = table := by
        simp [EmployeeAttendance.mark_attendance, hc]
      rw [hres]
      exact hinv e d

/-- Witness for C9: marking into an empty table inserts the one row, and
the inserted table still satisfies the invariant. -/
theorem c9_witness :
    EmployeeAttendance.mark_attendance 100 "e1" "2025-10-12" []
      = ⟨true, "Attendance marked successfully!",
         [⟨"e1", "2025-10-12", "present", some 100⟩]⟩ := by
  have h := (c9_mark_once_invariant 100 "e1" "2025-10-12" []).2.1 rfl
  simpa using h

/-- Helper for C5: when every stored non-rejected row has parseable
dates, the overlap loop answers the overlap error exactly when some
non-rejected request date-overlaps the new range, and `none` when the
loop falls through. -/
theorem overlapLoop_eq (s e : Date) (reqs : List LeaveReq)
    (hex : ∀ r ∈ reqs, r.status ≠ "rejected" →
        (parseDate r.start_date).isSome ∧ (parseDate r.end_date).isSome) :
    EmployeeLeave.overlapLoop s e reqs
      = if overlapsExisting s e reqs then some "Leave request overlaps with existing request"
        else none := by
  induction reqs with
  | nil => rfl
  | cons r rest ih =>
    have hrest : ∀ x ∈ rest, x.status ≠ "rejected" →
        (parseDate x.start_date).isSome ∧ (parseDate x.end_date).isSome :=
      fun x hx hne => hex x (List.mem_cons_of_mem r hx) hne
    have ih' := ih hrest
    by_cases hrej : (r.status == "rejected") = true
    · have hne : (r.status != "rejected") = false := by
        simp only [bne, Bool.not_eq_false']
        exact hrej
      simp only [EmployeeLeave.overlapLoop, overlapsExisting, List.any_cons] at ih' ⊢
      simp [hrej, hne, ih']
    · have hne : (r.status != "rejected") = true := by
        simp only [bne, Bool.not_eq_true']
        exact Bool.eq_false_iff.mpr hrej
      have hstat : r.status ≠ "rejected" := by
        intro hcontra
        exact hrej (by simp [hcontra])
      obtain ⟨h1, h2⟩ := hex r (List.mem_cons_self r rest) hstat
      obtain ⟨es, hes⟩ := Option.isSome_iff_exists.mp h1
      obtain ⟨ee, hee⟩ := Option.isSome_iff_exists.mp h2
      by_cases hov : (!(dateLT e es || dateLT ee s)) = true
      · simp only [EmployeeLeave.overlapLoop, overlapsExisting, List.any_cons]
        simp [hrej, hes, hee, hov, hne]
      · have hov' : (!(dateLT e es || dateLT ee s)) = false := Bool.eq_false_iff.mpr hov
        simp only [EmployeeLeave.overlapLoop, overlapsExisting, List.any_cons] at ih' ⊢
        simp [hrej, hes, hee, hov', hne, ih']

/-- Helper for C5, employee self-service path: a submission passing the
field/type/format validations is rejected with no insert whenever the
start is in the past, the end precedes the start, or the range
date-overlaps a non-rejected request of the same employee; otherwise it
is inserted with status `pending`. -/
theorem submitLeaveValidation (today s e : Date) (eid ltype sd ed reason : String)
    (reqs : List LeaveReq)
    (hlt : ltype ∈ EmployeeLeave.leaveTypeValues) (hr : reason ≠ "")
    (hs : parseDate sd = some s) (he : parseDate ed = some e)
    (hex : ∀ r ∈ reqs, r.status ≠ "rejected" →
        (parseDate r.start_date).isSome ∧ (parseDate r.end_date).isSome) :
    ((dateLT s today || dateLT e s || overlapsExisting s e reqs) = true →
        (EmployeeLeave.submit_leave_request today eid ltype sd ed reason reqs).success = false
        ∧ (EmployeeLeave.submit_leave_request today eid ltype sd ed reason reqs).inserted
            = none)
    ∧ ((dateLT s today || dateLT e s || overlapsExisting s e reqs) = false →
        EmployeeLeave.submit_leave_request today eid ltype sd ed reason reqs
          = ⟨true, "", some ⟨eid, ltype, sd, ed, pyStrip reason, "pending"⟩⟩) := by
  have hlt0 : (ltype == "") = false := by
    apply beq_eq_false_iff_ne.mpr
    intro hcontra
    subst hcontra
    revert hlt
    decide
  have hsd0 : (sd == "") = false := by
    apply beq_eq_false_iff_ne.mpr
    intro hcontra
    rw [hcontra, show parseDate "" = none from by decide] at hs
    exact Option.noConfusion hs
  have hed0 : (ed == "") = false := by
    apply beq_eq_false_iff_ne.mpr
    intro hcontra
    rw [hcontra, show parseDate "" = none from by decide] at he
    exact Option.noConfusion he
  have hr0 : (reason == "") = false := beq_eq_false_iff_ne.mpr hr
  have hcontains : EmployeeLeave.leaveTypeValues.contains ltype = true := by
    exact List.elem_eq_true_of_mem hlt
  have hloop := overlapLoop_eq s e reqs hex
  by_cases hp : dateLT s today = true
  · refine ⟨fun _ => ?_, fun hgood => ?_⟩
    · constructor <;>
        simp [EmployeeLeave.submit_leave_request, hlt0, hsd0, hed0, hr0, hcontains,
          hlt, hs, he, hp]
    · rw [hp] at hgood; simp at hgood
  · have hp' : dateLT s today = false := Bool.eq_false_iff.mpr hp
    by_cases hq : dateLT e s = true
    · refine ⟨fun _ => ?_, fun hgood => ?_⟩
      · constructor <;>
          simp [EmployeeLeave.submit_leave_request, hlt0, hsd0, hed0, hr0, hcontains,
            hlt, hs, he, hp', hq]
      · rw [hq] at hgood; simp at hgood
    · have hq' : dateLT e s = false := Bool.eq_false_iff.mpr hq
      by_cases hov : overlapsExisting s e reqs = true
      · refine ⟨fun _ => ?_, fun hgood => ?_⟩
        · constructor <;>
            simp [EmployeeLeave.submit_leave_request, hlt0, hsd0, hed0, hr0, hcontains,
              hlt, hs, he, hp', hq', hloop, hov]
        · rw [hov] at hgood; simp at hgood
      · have hov' : overlapsExisting s e reqs = false := Bool.eq_false_iff.mpr hov
        refine ⟨fun hbad => ?_, fun _ => ?_⟩
        · rw [hp', hq', hov'] at hbad; simp at hbad
        · simp [EmployeeLeave.submit_leave_request, hlt0, hsd0, hed0, hr0, hcontains,
            hlt, hs, he, hp', hq', hloop, hov']

/-- Helper for C5, admin path: when every stored approved row has
parseable dates and the new dates parse, `validate_leave_request`
answers the overlap failure exactly when some approved request
date-overlaps the new range, and `(true, "Valid")` otherwise. -/
theorem validate_leave_request_eq (s e : Date) (sd ed : String) (reqs : List LeaveReq)
    (hs : parseDate sd = some s) (he : parseDate ed = some e)
    (hexA : ∀ r ∈ reqs, r.status = "approved" →
        (parseDate r.start_date).isSome ∧ (parseDate r.end_date).isSome) :
    AdminLeave.validate_leave_request sd ed reqs
      = if overlapsApproved s e reqs = true
        then (false, "Leave request overlaps with existing approved leave")
        else (true, "Valid") := by
  induction reqs with
  | nil => rfl
  | cons r rest ih =>
    have hrest : ∀ x ∈ rest, x.status = "approved" →
        (parseDate x.start_date).isSome ∧ (parseDate x.end_date).isSome :=
      fun x hx => hexA x (List.mem_cons_of_mem r hx)
    have ih' := ih hrest
    simp only [AdminLeave.validate_leave_request] at ih' ⊢
    by_cases hap : (r.status == "approved") = true
    · have hstat : r.status = "approved" := by simpa using hap
      obtain ⟨h1, h2⟩ := hexA r (List.mem_cons_self r rest) hstat
      obtain ⟨es, hes⟩ := Option.isSome_iff_exists.mp h1
      obtain ⟨ee, hee⟩ := Option.isSome_iff_exists.mp h2
      by_cases hov : (dateLE s ee && dateLE es e) = true
      · simp [AdminLeave.validateLoop, List.filter_cons, overlapsApproved,
          hap, hes, hee, hs, he, hov]
      · have hov' : (dateLE s ee && dateLE es e) = false := Bool.eq_false_iff.mpr hov
        simp [AdminLeave.validateLoop, List.filter_cons, overlapsApproved,
          hap, hes, hee, hs, he, hov', ih']
    · have hap' : (r.status == "approved") = false := Bool.eq_false_iff.mpr hap
      simp [List.filter_cons, overlapsApproved, hap', ih']

/-- Counterexample for C5 as stated: the admin creation route inserts a
request whose range date-overlaps an existing *pending* (hence
non-rejected) request of the same employee, because its validation
queries only approved rows. -/
theorem c5_counterexample :
    overlapsExisting ⟨2025, 11, 3⟩ ⟨2025, 11, 4⟩
        [⟨"L1", "e1", "vacation", "2025-11-01", "2025-11-05", "trip", "pending",
          "2025-10-01T00:00:00"⟩] = true
    ∧ AdminLeave.create_leave_request ⟨2025, 10, 12⟩ "e1" "vacation"
        "2025-11-03" "2025-11-04" ""
        [⟨"L1", "e1", "vacation", "2025-11-01", "2025-11-05", "trip", "pending",
          "2025-10-01T00:00:00"⟩]
        [⟨"e1", "Ann", "employee", "active"⟩]
      = ⟨true, "", some ⟨"e1", "vacation", "2025-11-03", "2025-11-04", "", "pending"⟩⟩ := by
  constructor <;> decide

/-- C5 (amended): the employee self-service route, under its
field/type/format validations, rejects with no insert whenever the start
is in the past, the end precedes the start, or the range date-overlaps a
*non-rejected* request of the same employee, and otherwise inserts with
status `pending`; the admin creation route applies the same date checks
but tests overlap only against the employee's *approved* requests, so it
inserts (status `pending`, reason unstripped) whenever no approved
request overlaps. -/
theorem c5_creation_overlap_policy (today s e : Date)
    (eid ltype sd ed reason : String) (reqs : List LeaveReq)
    (emps : List Employee) (emp : Employee)
    (heid : eid ≠ "")
    (hlt : ltype ∈ EmployeeLeave.leaveTypeValues) (hr : reason ≠ "")
    (hs : parseDate sd = some s) (he : parseDate ed = some e)
    (hex : ∀ r ∈ reqs, r.status ≠ "rejected" →
        (parseDate r.start_date).isSome ∧ (parseDate r.end_date).isSome)
    (hemp : (emps.filter fun x => x.id == eid).head? = some emp) :
    (((dateLT s today || dateLT e s || overlapsExisting s e reqs) = true →
        (EmployeeLeave.submit_leave_request today eid ltype sd ed reason reqs).success = false
        ∧ (EmployeeLeave.submit_leave_request today eid ltype sd ed reason reqs).inserted
            = none)
      ∧ ((dateLT s today || dateLT e s || overlapsExisting s e reqs) = false →
          EmployeeLeave.submit_leave_request today eid ltype sd ed reason reqs
            = ⟨true, "", some ⟨eid, ltype, sd, ed, pyStrip reason, "pending"⟩⟩))
    ∧ (((dateLT s today || dateLT e s || overlapsApproved s e reqs) = true →
        (AdminLeave.create_leave_request today eid ltype sd ed reason reqs emps).success
            = false
        ∧ (AdminLeave.create_leave_request today eid ltype sd ed reason reqs emps).inserted
            = none)
      ∧ ((dateLT s today || dateLT e s || overlapsApproved s e reqs) = false →
          AdminLeave.create_leave_request today eid ltype sd ed reason reqs emps
            = ⟨true, "", some ⟨eid, ltype, sd, ed, reason, "pending"⟩⟩)) := by
  refine ⟨submitLeaveValidation today s e eid ltype sd ed reason reqs hlt hr hs he hex, ?_⟩
  have heid0 : (eid == "") = false := beq_eq_false_iff_ne.mpr heid
  have hlt0 : (ltype == "") = false := by
    apply beq_eq_false_iff_ne.mpr
    intro hcontra
    subst hcontra
    revert hlt
    decide
  have hsd0 : (sd == "") = false := by
    apply beq_eq_false_iff_ne.mpr
    intro hcontra
    rw [hcontra, show parseDate "" = none from by decide] at hs
    exact Option.noConfusion hs
  have hed0 : (ed == "") = false := by
    apply beq_eq_false_iff_ne.mpr
    intro hcontra
    rw [hcontra, show parseDate "" = none from by decide] at he
    exact Option.noConfusion he
  have hexA : ∀ r ∈ reqs, r.status = "approved" →
      (parseDate r.start_date).isSome ∧ (parseDate r.end_date).isSome := by
    intro r hrr hap
    apply hex r hrr
    rw [hap]
    decide
  have hval := validate_leave_request_eq s e sd ed reqs hs he hexA
  by_cases hp : dateLT s today = true
  · refine ⟨fun _ => ?_, fun hgood => ?_⟩
    · constructor <;>
        simp [AdminLeave.create_leave_request, heid0, hlt0, hsd0, hed0, hs, he, hp]
    · rw [hp] at hgood; simp at hgood
  · have hp' : dateLT s today = false := Bool.eq_false_iff.mpr hp
    by_cases hq : dateLT e s = true
    · refine ⟨fun _ => ?_, fun hgood => ?_⟩
      · constructor <;>
          simp [AdminLeave.create_leave_request, heid0, hlt0, hsd0, hed0, hs, he, hp', hq]
      · rw [hq] at hgood; simp at hgood
    · have hq' : dateLT e s = false := Bool.eq_false_iff.mpr hq
      by_cases hov : overlapsApproved s e reqs = true
      · refine ⟨fun _ => ?_, fun hgood => ?_⟩
        · constructor <;>
            simp [AdminLeave.create_leave_request, heid0, hlt0, hsd0, hed0, hs, he,
              hp', hq', hval, hov]
        · rw [hov] at hgood; simp at hgood
      · have hov' : overlapsApproved s e reqs = false := Bool.eq_false_iff.mpr hov
        refine ⟨fun hbad => ?_, fun _ => ?_⟩
        · rw [hp', hq', hov'] at hbad; simp at hbad
        · simp [AdminLeave.create_leave_request, heid0, hlt0, hsd0, hed0, hs, he,
            hp', hq', hval, hov', hemp]

/-- Witness for C5 at the policy-divergence point: the same request,
overlapping only a pending request, is refused by the employee route but
inserted by the admin route. -/
theorem c5_policy_witness :
    (EmployeeLeave.submit_leave_request ⟨2025, 10, 12⟩ "e1" "vacation"
        "2025-11-03" "2025-11-04" "trip"
        [⟨"L1", "e1", "vacation", "2025-11-01", "2025-11-05", "trip", "pending",
          "2025-10-01T00:00:00"⟩]).inserted = none
    ∧ AdminLeave.create_leave_request ⟨2025, 10, 12⟩ "e1" "vacation"
        "2025-11-03" "2025-11-04" "trip"
        [⟨"L1", "e1", "vacation", "2025-11-01", "2025-11-05", "trip", "pending",
          "2025-10-01T00:00:00"⟩]
        [⟨"e1", "Ann", "employee", "active"⟩]
      = ⟨true, "", some ⟨"e1", "vacation", "2025-11-03", "2025-11-04", "trip",
                         "pending"⟩⟩ := by
  have h := c5_creation_overlap_policy ⟨2025, 10, 12⟩ ⟨2025, 11, 3⟩ ⟨2025, 11, 4⟩
    "e1" "vacation" "2025-11-03" "2025-11-04" "trip"
    [⟨"L1", "e1", "vacation", "2025-11-01", "2025-11-05", "trip", "pending",
      "2025-10-01T00:00:00"⟩]
    [⟨"e1", "Ann", "employee", "active"⟩] ⟨"e1", "Ann", "employee", "active"⟩
    (by decide) (by decide) (by decide) (by decide) (by decide)
    (by
      intro r hrr hne
      rw [List.mem_singleton] at hrr
      subst hrr
      exact ⟨by decide, by decide⟩)
    (by decide)
  exact ⟨(h.1.1 (by decide)).2, h.2.2 (by decide)⟩

/-- C6: admin attendance marking rejects any date strictly after today;
for a non-future date (with valid fields and an active employee) it
upserts keyed on `(employee, date)` — updating status and `created_at`
when a row exists, inserting otherwise — so marking the same employee,
date and status twice yields exactly one row for the key, stamped by the
latest write. -/
theorem c6_mark_attendance_upsert (now1 now2 : Int) (today d : Date)
    (eid status date : String) (emps : List Employee) (table : List AttRow) (emp : Employee)
    (hid : eid ≠ "")
    (hst : status = "present" ∨ status = "absent" ∨ status = "late")
    (hdate : parseDate date = some d)
    (hemp : (emps.filter fun x =>
        x.id == eid && x.role == "employee" && x.status == "active").head? = some emp) :
    (dateLT today d = true →
        AdminAttendance.mark_attendance now1 today eid status date emps table
          = ⟨false, "Cannot mark attendance for future dates", table⟩)
    ∧ (dateLT today d = false →
        (table.filter (attKey eid (isoString d)) ≠ [] →
            AdminAttendance.mark_attendance now1 today eid status date emps table
              = ⟨true, "Attendance updated to " ++ status ++ " for " ++ emp.name,
                 table.map fun r =>
                   if attKey eid (isoString d) r then
                     { r with status := status, created_at := some now1 }
                   else r⟩)
        ∧ (table.filter (attKey eid (isoString d)) = [] →
            AdminAttendance.mark_attendance now1 today eid status date emps table
              = ⟨true, "Attendance marked as " ++ status ++ " for " ++ emp.name,
                 table ++ [⟨eid, isoString d, status, none⟩]⟩)
        ∧ (table.filter (attKey eid (isoString d)) = [] →
            ((AdminAttendance.mark_attendance now2 today eid status date emps
                (AdminAttendance.mark_attendance now1 today eid status date emps
                  table).table).table.filter (attKey eid (isoString d)))
              = [⟨eid, isoString d, status, some now2⟩])) := by
  have hid0 : (eid == "") = false := beq_eq_false_iff_ne.mpr hid
  have hst1 : status ≠ "" := by rcases hst with h | h | h <;> simp [h]
  have hst0 : (status == "") = false := beq_eq_false_iff_ne.mpr hst1
  have hdt1 : date ≠ "" := by
    intro hcontra
    rw [hcontra, show parseDate "" = none from by decide] at hdate
    exact Option.noConfusion hdate
  have hdt0 : (date == "") = false := beq_eq_false_iff_ne.mpr hdt1
  have hcontains : (["present", "absent", "late"].contains status) = true := by
    rcases hst with h | h | h <;> simp [h]
  have hstmem : status ∈ ["present", "absent", "late"] := by
    rcases hst with h | h | h <;> simp [h]
  refine ⟨fun hfut => ?_, fun hnf => ⟨fun hex => ?_, fun hnone => ?_, fun hnone => ?_⟩⟩
  · simp [AdminAttendance.mark_attendance, hid0, hst0, hdt0, hcontains, hstmem, hdate, hfut]
  · simp [AdminAttendance.mark_attendance, hid0, hst0, hdt0, hcontains, hstmem, hdate,
      hnf, hemp, hex]
  · simp [AdminAttendance.mark_attendance, hid0, hst0, hdt0, hcontains, hstmem, hdate,
      hnf, hemp, hnone]
  · have h1 : AdminAttendance.mark_attendance now1 today eid status date emps table
        = ⟨true, "Attendance marked as " ++ status ++ " for " ++ emp.name,
           table ++ [⟨eid, isoString d, status, none⟩]⟩ := by
      simp [AdminAttendance.mark_attendance, hid0, hst0, hdt0, hcontains, hstmem, hdate,
        hnf, hemp, hnone]
    rw [h1]
    have hkey0 : attKey eid (isoString d) ⟨eid, isoString d, status, none⟩ = true := by
      simp [attKey]
    have hne1 : (table ++ [(⟨eid, isoString d, status, none⟩ : AttRow)]).filter
        (attKey eid (isoString d)) ≠ [] := by
      rw [List.filter_append, hnone]
      simp [hkey0]
    have h2 : AdminAttendance.mark_attendance now2 today eid status date emps
        (table ++ [(⟨eid, isoString d, status, none⟩ : AttRow)])
        = ⟨true, "Attendance updated to " ++ status ++ " for " ++ emp.name,
           (table ++ [(⟨eid, isoString d, status, none⟩ : AttRow)]).map fun r =>
             if attKey eid (isoString d) r then
               { r with status := status, created_at := some now2 }
             else r⟩ := by
      simp only [AdminAttendance.mark_attendance, hid0, hst0, hdt0, hdate]
      simp [hcontains, hstmem, hnf, hemp, hne1, hkey0]
    rw [h2]
    have hall : ∀ r ∈ table, attKey eid (isoString d) r = false := by
      intro r hrr
      exact Bool.eq_false_iff.mpr (List.filter_eq_nil_iff.mp hnone r hrr)
    have hmapid : ∀ t : List AttRow, (∀ r ∈ t, attKey eid (isoString d) r = false) →
        (t.map fun r => if attKey eid (isoString d) r then
            { r with status := status, created_at := some now2 } else r) = t := by
      intro t
      induction t with
      | nil => intro _; rfl
      | cons x xs ihx =>
        intro hall2
        have hx := hall2 x (List.mem_cons_self x xs)
        simp only [List.map_cons, hx, if_neg Bool.false_ne_true,
          ihx fun r hrr => hall2 r (List.mem_cons_of_mem x hrr)]
    rw [List.map_append, List.filter_append, hmapid table hall, hnone]
    simp [hkey0, attKey]

/-- Witness for C6: inserting then re-marking the same employee, day and
status leaves exactly one row for the key, stamped by the second write. -/
theorem c6_witness :
    ((AdminAttendance.mark_attendance 2000 ⟨2025, 10, 12⟩ "e1" "present" "2025-10-10"
        [⟨"e1", "Ann", "employee", "active"⟩]
        (AdminAttendance.mark_attendance 1000 ⟨2025, 10, 12⟩ "e1" "present" "2025-10-10"
          [⟨"e1", "Ann", "employee", "active"⟩] []).table).table.filter
      (attKey "e1" (isoString ⟨2025, 10, 10⟩)))
      = [⟨"e1", isoString ⟨2025, 10, 10⟩, "present", some 2000⟩] :=
  ((c6_mark_attendance_upsert 1000 2000 ⟨2025, 10, 12⟩ ⟨2025, 10, 10⟩ "e1" "present"
    "2025-10-10" [⟨"e1", "Ann", "employee", "active"⟩] [] ⟨"e1", "Ann", "employee", "active"⟩
    (by decide) (Or.inl rfl) (by decide) (by decide)).2 (by decide)).2.2 rfl

/-- Helper for C1: on rows that all lie inside the year window (so both
dates parse), the accumulation loop of `get_employee_stats` agrees with
the sum of `calculate_leave_days`. -/
theorem statsUsedLoop_eq_sum (year : Nat) (l : List LeaveReq)
    (hw : ∀ r ∈ l, App.inYearWindow year r = true) :
    App.statsUsedLoop l
      = (l.map fun r => EmployeeLeave.calculate_leave_days r.start_date r.end_date).sum := by
  induction l with
  | nil => rfl
  | cons r rest ih =>
    have hr := hw r (List.mem_cons_self r rest)
    have hrest := fun x hx => hw x (List.mem_cons_of_mem r hx)
    cases hps : parseDate r.start_date with
    | none =>
      simp only [App.inYearWindow, hps] at hr
      exact Bool.noConfusion hr
    | some s =>
      cases hpe : parseDate r.end_date with
      | none =>
        simp only [App.inYearWindow, hps, hpe] at hr
        exact Bool.noConfusion hr
      | some e =>
        simp only [App.statsUsedLoop, List.map_cons, List.sum_cons, hps, hpe,
          EmployeeLeave.calculate_leave_days, ih hrest]

/-- Helper for C1: the `approved_days` component of the `get_leave_stats`
fold equals the accumulator plus the summed day counts of the approved
requests whose `created_at` starts with the year. -/
theorem leaveStatsFold_approved (year : Nat) (l : List LeaveReq) :
    ∀ (t a : Int) (p : Nat),
      (l.foldl (EmployeeLeave.leaveStatsStep year) (t, a, p)).2.1
        = a + ((l.filter fun r => r.status == "approved" &&
              strStartsWith r.created_at (toString year)).map
            fun r => EmployeeLeave.calculate_leave_days r.start_date r.end_date).sum := by
  induction l with
  | nil => intro t a p; simp
  | cons r rest ih =>
    intro t a p
    simp only [List.foldl_cons, List.filter_cons]
    by_cases h1 : strStartsWith r.created_at (toString year) = true
    · by_cases h2 : (r.status == "approved") = true
      · have hstep : EmployeeLeave.leaveStatsStep year (t, a, p) r
            = (t + EmployeeLeave.calculate_leave_days r.start_date r.end_date,
               a + EmployeeLeave.calculate_leave_days r.start_date r.end_date, p) := by
          simp [EmployeeLeave.leaveStatsStep, h1, h2]
        have hcond : (r.status == "approved"
            && strStartsWith r.created_at (toString year)) = true := by
          rw [h1, h2]; rfl
        rw [hstep, ih]
        simp [hcond, add_assoc]
      · have h2' : (r.status == "approved") = false := Bool.eq_false_iff.mpr h2
        have hcond : (r.status == "approved"
            && strStartsWith r.created_at (toString year)) = false := by
          rw [h2']; rfl
        by_cases h3 : (r.status == "pending") = true
        · have hstep : EmployeeLeave.leaveStatsStep year (t, a, p) r
              = (t + EmployeeLeave.calculate_leave_days r.start_date r.end_date, a, p + 1) := by
            simp [EmployeeLeave.leaveStatsStep, h1, h2', h3]
          rw [hstep, ih]
          simp [hcond]
        · have h3' : (r.status == "pending") = false := Bool.eq_false_iff.mpr h3
          have hstep : EmployeeLeave.leaveStatsStep year (t, a, p) r
              = (t + EmployeeLeave.calculate_leave_days r.start_date r.end_date, a, p) := by
            simp [EmployeeLeave.leaveStatsStep, h1, h2', h3']
          rw [hstep, ih]
          simp [hcond]
    · have h1' : strStartsWith r.created_at (toString year) = false :=
        Bool.eq_false_iff.mpr h1
      have hstep : EmployeeLeave.leaveStatsStep year (t, a, p) r = (t, a, p) := by
        simp [EmployeeLeave.leaveStatsStep, h1']
      have hcond : (r.status == "approved"
          && strStartsWith r.created_at (toString year)) = false := by
        rw [h1']; simp
      rw [hstep, ih]
      simp [hcond]

/-- C1 (amended): the balance of `get_employee_stats` (app.py) is
`max(0, 20 - total_used)` with `total_used` summed over the approved
requests whose start date is on or after Jan 1 AND whose end date is on
or before Dec 31 of the year (so approved requests spanning into the
next year contribute nothing); the `remaining_balance` of
`get_leave_stats` (employee_leave.py) instead sums over the approved
requests whose `created_at` begins with the year string, irrespective of
their start dates. -/
theorem c1_amended_balance (year : Nat) (reqs : List LeaveReq) :
    App.get_employee_stats_leave_balance year reqs
      = max 0 (20 - ((reqs.filter fun r => r.status == "approved"
            && App.inYearWindow year r).map
          fun r => EmployeeLeave.calculate_leave_days r.start_date r.end_date).sum)
    ∧ (EmployeeLeave.get_leave_stats year reqs).remaining_balance
      = max 0 (20 - ((reqs.filter fun r => r.status == "approved"
            && strStartsWith r.created_at (toString year)).map
          fun r => EmployeeLeave.calculate_leave_days r.start_date r.end_date).sum) := by
  constructor
  · have hw : ∀ r ∈ (reqs.filter fun r => r.status == "approved"
        && App.inYearWindow year r), App.inYearWindow year r = true := by
      intro r hrr
      have h := (List.mem_filter.mp hrr).2
      simp only [Bool.and_eq_true] at h
      exact h.2
    simp only [App.get_employee_stats_leave_balance]
    rw [statsUsedLoop_eq_sum year _ hw]
  · have h := leaveStatsFold_approved year reqs 0 0 0
    simp only [EmployeeLeave.get_leave_stats]
    rw [h]
    simp

/-- Counterexample for C1 as stated: an approved request spanning into
the next year (start 2025-12-30, end 2026-01-02, 4 days) is excluded by
the app.py query window even though its start date lies in the year
(code balance 20, claim balance 16); and an approved 3-day request
created in 2024 but starting in 2025 is skipped by `get_leave_stats`'s
`created_at` filter (code balance 20, claim balance 17). -/
theorem c1_counterexample :
    App.get_employee_stats_leave_balance 2025
        [⟨"L1", "e1", "vacation", "2025-12-30", "2026-01-02", "trip", "approved",
          "2025-11-01T00:00:00"⟩]
      ≠ specClaimBalance 2025
        [⟨"L1", "e1", "vacation", "2025-12-30", "2026-01-02", "trip", "approved",
          "2025-11-01T00:00:00"⟩]
    ∧ (EmployeeLeave.get_leave_stats 2025
          [⟨"L2", "e1", "vacation", "2025-03-10", "2025-03-12", "trip", "approved",
            "2024-12-31T23:59:59"⟩]).remaining_balance
        ≠ specClaimBalance 2025
          [⟨"L2", "e1", "vacation", "2025-03-10", "2025-03-12", "trip", "approved",
            "2024-12-31T23:59:59"⟩] := by
  constructor <;> decide
